import Mathlib

/-!
# Verification of the RepoScope static metrics engine

Shallow embedding of the core of `backend/services/code_analyzer.py` (class
`CodeAnalyzer`) and of the data model in `backend/schemas/code_metrics.py`,
together with theorems settling the behavioral claims about language
detection, complexity metrics, maintainability, pattern detection,
dependency classification and repository aggregation.

Modelling conventions:
* Python `int` is modelled as `Nat` (all values produced by the engine are
  non-negative counters or line/byte positions).
* Python `float` is idealized as `ℝ` (the maintainability/score formulas);
  exact decimal pattern confidences are modelled as `ℚ` so that pattern
  values stay decidable.
* Tree-sitter parse trees (an external native library) are modelled by the
  inductive `TSNode` carrying exactly the data the analyzer reads from a
  node: `type`, `start_point[0]`, `end_point[0]`, `start_byte`, `end_byte`
  and `children`; traversals in the source are `preorder` walks (visit the
  node, then its children in order), which is made explicit here.
* Filesystem walking is abstracted: `analyze_repository_enhanced` receives
  the flag `os.path.exists(repo_path)` and the list of eligible
  (path, content) pairs produced by the `os.walk` loop, plus the per-file
  analysis function `self.analyze_file_enhanced` as a parameter.
-/

/-! ## Data model (`backend/schemas/code_metrics.py`) -/

/-- `ComplexityMetrics` from `code_metrics.py`: all fields are ints. -/
structure ComplexityMetrics where
  cyclomatic_complexity : Nat
  cognitive_complexity : Nat
  nesting_depth : Nat
  function_length : Nat
deriving DecidableEq

/-- `QualityMetrics` from `code_metrics.py`: float fields, idealized as `ℝ`. -/
structure QualityMetrics where
  maintainability_index : ℝ
  technical_debt_ratio : ℝ
  code_duplication : ℝ
  test_coverage : ℝ

/-- `DependencyInfo` from `code_metrics.py`. -/
structure DependencyInfo where
  imports : List String
  exports : List String
  internal_deps : List String
  external_deps : List String
deriving DecidableEq

/-- `CodePattern` from `code_metrics.py`; `confidence` is an exact decimal
literal in the source, modelled as `ℚ`. -/
structure CodePattern where
  pattern_type : String
  pattern_name : String
  confidence : ℚ
  location : String
  line_number : Nat
deriving DecidableEq

/-- `FileMetrics` from `code_metrics.py`. The analyzer always populates
`complexity` and `quality`, so they are modelled as non-optional. -/
structure FileMetrics where
  file_path : String
  language : String
  lines_of_code : Nat
  complexity : ComplexityMetrics
  quality : QualityMetrics
  dependencies : DependencyInfo
  patterns : List CodePattern

/-- `RepositoryMetrics` from `code_metrics.py`; `languages` maps a language
to its `{"files": _, "lines": _}` counters, modelled as an association list
in first-encounter order. -/
structure RepositoryMetrics where
  total_files : Nat
  total_lines : Nat
  languages : List (String × Nat × Nat)
  avg_complexity : ℝ
  avg_maintainability : ℝ
  hotspots : List String
  architecture_score : ℝ

/-! ## Tree-sitter parse trees (external library, data read by the analyzer) -/

/-- A tree-sitter node as seen by the analyzer: node kind string, start/end
row (`start_point[0]`, `end_point[0]`), start/end byte and children. -/
inductive TSNode where
  | node (type : String) (startRow endRow startByte endByte : Nat)
         (children : List TSNode)

def TSNode.type : TSNode → String
  | .node t _ _ _ _ _ => t

def TSNode.startRow : TSNode → Nat
  | .node _ s _ _ _ _ => s

def TSNode.endRow : TSNode → Nat
  | .node _ _ e _ _ _ => e

def TSNode.startByte : TSNode → Nat
  | .node _ _ _ sb _ _ => sb

def TSNode.endByte : TSNode → Nat
  | .node _ _ _ _ eb _ => eb

def TSNode.children : TSNode → List TSNode
  | .node _ _ _ _ _ cs => cs

mutual

/-- The node sequence visited by the source's recursive `traverse_node`
pattern (visit the node, then recurse into `node.children` in order). -/
def TSNode.preorder : TSNode → List TSNode
  | .node t s e sb eb cs => .node t s e sb eb cs :: TSNode.preorderList cs

def TSNode.preorderList : List TSNode → List TSNode
  | [] => []
  | c :: cs => c.preorder ++ TSNode.preorderList cs

end

/-- `n` is a node occurring somewhere in the tree `t` (i.e. visited by the
analyzer's recursive traversals starting from `t.root_node`). -/
inductive OccursIn : TSNode → TSNode → Prop where
  | refl (t : TSNode) : OccursIn t t
  | child {n c : TSNode} {ty : String} {s e sb eb : Nat} {cs : List TSNode} :
      c ∈ cs → OccursIn n c → OccursIn n (TSNode.node ty s e sb eb cs)

/-! ## Python string helpers used by the analyzer -/

/-- Split a char list on `'\n'` separators. -/
def splitNewlines : List Char → List (List Char)
  | [] => [[]]
  | '\n' :: rest => [] :: splitNewlines rest
  | c :: rest =>
    match splitNewlines rest with
    | [] => [[c]]
    | l :: ls => (c :: l) :: ls

/-- Model of Python's `str.splitlines()` for `\n`-separated text: a
trailing final newline does not produce a final empty line. -/
def splitlines (s : String) : List String :=
  let parts := (splitNewlines s.toList).map List.asString
  if parts.getLast? = some "" then parts.dropLast else parts

/-- Python truthiness of `line.strip()`: true iff the line has a
non-whitespace character. -/
def pyNonBlank (line : String) : Bool :=
  line.trim != ""

/-- Substring test on char lists (Python's `pat in hay` for strings). -/
def listHasInfix (pat : List Char) : List Char → Bool
  | [] => pat.isEmpty
  | c :: rest => pat.isPrefixOf (c :: rest) || listHasInfix pat rest

/-- Python's `pat in hay` substring containment. -/
def strContains (hay pat : String) : Bool :=
  listHasInfix pat.toList hay.toList

/-- ASCII lowercasing of one character (Python's `str.lower()` restricted
to ASCII, which covers every name and extension the analyzer compares
against). -/
def lowerChar (c : Char) : Char :=
  if 65 ≤ c.toNat ∧ c.toNat ≤ 90 then Char.ofNat (c.toNat + 32) else c

/-- Python's `str.lower()` (ASCII fragment). -/
def pyLower (s : String) : String :=
  (s.toList.map lowerChar).asString

/-- Chars after the last `/` (char-list level). -/
def lastComponentL (l : List Char) : List Char :=
  (l.reverse.takeWhile (fun c => c != '/')).reverse

/-- `pathlib.Path(p).name` for a POSIX path of a regular file: the part of
the path after the last `/`. -/
def lastComponent (p : String) : String :=
  (lastComponentL p.toList).asString

/-- Chars up to and including the last `/` (char-list level). -/
def dropLastComponentL (l : List Char) : List Char :=
  (l.reverse.dropWhile (fun c => c != '/')).reverse

/-- The directory part of a path, up to and including the last `/`. -/
def dropLastComponent (p : String) : String :=
  (dropLastComponentL p.toList).asString

/-- `pathlib`'s suffix of a file name (char-list level): `name[i:]` for
`i = name.rfind('.')` when `0 < i < len(name) - 1`, else empty. The chars
after the last `.` are `(l.reverse.takeWhile (· != '.')).reverse`; the
three guards are "no dot", "dot is the last char" (`rfind = len - 1`) and
"dot is the first char" (`rfind = 0`). -/
def suffixL (l : List Char) : List Char :=
  if ((l.reverse.takeWhile (fun c => c != '.')).reverse).length = l.length then []
  else if ((l.reverse.takeWhile (fun c => c != '.')).reverse).length = 0 then []
  else if ((l.reverse.takeWhile (fun c => c != '.')).reverse).length + 1 = l.length then []
  else '.' :: (l.reverse.takeWhile (fun c => c != '.')).reverse

/-- `pathlib.Path(name).suffix` of a file name. -/
def suffixOf (name : String) : String :=
  (suffixL name.toList).asString

/-! ## Language classification (`CodeAnalyzer.detect_language`) -/

/-- The `extension_map` dict of `detect_language`, in source order. -/
def extension_map : List (String × String) :=
  [(".py", "python"), (".js", "javascript"), (".jsx", "javascript"),
   (".ts", "typescript"), (".tsx", "typescript"), (".java", "java"),
   (".cpp", "cpp"), (".cc", "cpp"), (".cxx", "cpp"), (".hpp", "cpp"),
   (".h", "cpp"), (".c", "c"), (".rs", "rust"), (".go", "go"),
   (".php", "php"), (".rb", "ruby"), (".cs", "csharp"),
   (".swift", "swift"), (".kt", "kotlin"), (".scala", "scala"),
   (".sh", "shell"), (".bash", "shell"), (".zsh", "shell"),
   (".fish", "shell"), (".cmake", "cmake"), (".dockerfile", "dockerfile"),
   (".html", "html"), (".xml", "xml"), (".sql", "sql"), (".r", "r"),
   (".m", "matlab"), (".pl", "perl"), (".lua", "lua"), (".vim", "vim"),
   (".el", "elisp")]

/-- `CodeAnalyzer.detect_language`: special filenames first (on the
lowercased name), then the lowercased extension through `extension_map`;
`dict.get` returns `None` on a miss. -/
def detect_language (file_path : String) : Option String :=
  let filename := pyLower (lastComponent file_path)
  if filename ∈ (["cmakelists.txt", "makefile", "makefile.am", "makefile.in"] : List String) then
    some (if filename = "cmakelists.txt" then "cmake" else "makefile")
  else if filename = "dockerfile" then
    some "dockerfile"
  else
    List.lookup (pyLower (suffixOf (lastComponent file_path))) extension_map

/-! ## Cyclomatic complexity (`calculate_cyclomatic_complexity`) -/

/-- The per-language decision-node tables of
`calculate_cyclomatic_complexity`. -/
def isDecisionNode (lang : String) (t : String) : Bool :=
  if lang = "python" then
    (["if_statement", "while_statement", "for_statement", "try_statement",
      "except_clause", "elif_clause"] : List String).contains t
  else if lang = "javascript" ∨ lang = "typescript" then
    (["if_statement", "while_statement", "for_statement", "switch_statement",
      "case_clause", "catch_clause"] : List String).contains t
  else if lang = "java" then
    (["if_statement", "while_statement", "for_statement", "switch_expression",
      "catch_clause"] : List String).contains t
  else false

/-- `CodeAnalyzer.calculate_cyclomatic_complexity`: base complexity 1, plus
one per decision node visited by the traversal. -/
def calculate_cyclomatic_complexity (tree : TSNode) (language : String) : Nat :=
  1 + ((tree.preorder.filter fun n => isDecisionNode language n.type).length)

/-! ## Pattern detection (`detect_code_patterns` and helpers) -/

/-- The Long Method check of `_detect_anti_patterns`: a Python
`function_definition` spanning more than 50 rows. -/
def longMethodHit (language : String) (n : TSNode) : Option CodePattern :=
  if language = "python" ∧ n.type = "function_definition" ∧
      50 < n.endRow - n.startRow then
    some ⟨"anti_pattern", "Long Method", 0.8,
          "Line " ++ toString (n.startRow + 1), n.startRow + 1⟩
  else none

/-- The first traversal of `_detect_anti_patterns`
(`traverse_for_long_methods`). -/
def traverse_for_long_methods (language : String) (t : TSNode) : List CodePattern :=
  t.preorder.filterMap (longMethodHit language)

/-- `count_methods` inside `_detect_anti_patterns`: `function_definition`
children of a `block` child, plus direct `function_definition` children. -/
def count_methods (classNode : TSNode) : Nat :=
  (classNode.children.map fun c =>
    if c.type = "block" then
      (c.children.filter fun g => g.type == "function_definition").length
    else if c.type = "function_definition" then 1
    else 0).sum

/-- The God Class check of `_detect_anti_patterns`: a Python
`class_definition` owning more than 20 methods. -/
def godClassHit (language : String) (n : TSNode) : Option CodePattern :=
  if language = "python" ∧ n.type = "class_definition" ∧
      20 < count_methods n then
    some ⟨"anti_pattern", "God Class", 0.7,
          "Line " ++ toString (n.startRow + 1), n.startRow + 1⟩
  else none

/-- The second traversal of `_detect_anti_patterns`
(`traverse_for_god_class`). -/
def traverse_for_god_class (language : String) (t : TSNode) : List CodePattern :=
  t.preorder.filterMap (godClassHit language)

/-- `CodeAnalyzer._detect_anti_patterns`: the long-method traversal runs
first, then the god-class traversal, appending to the same list. -/
def detect_anti_patterns (t : TSNode) (lines : List String) (language : String) :
    List CodePattern :=
  let _ := lines
  traverse_for_long_methods language t ++ traverse_for_god_class language t

/-- The Singleton scan of `_detect_design_patterns`: `for i, line in
enumerate(lines)`, emitting when `"__new__" in line and "cls" in line`. -/
def singletonScan (i : Nat) : List String → List CodePattern
  | [] => []
  | line :: rest =>
    (if strContains line "__new__" && strContains line "cls" then
      [⟨"design_pattern", "Singleton", 0.6, "Line " ++ toString (i + 1), i + 1⟩]
    else []) ++ singletonScan (i + 1) rest

/-- `CodeAnalyzer._detect_design_patterns` (Python-only Singleton scan). -/
def detect_design_patterns (t : TSNode) (lines : List String) (language : String) :
    List CodePattern :=
  let _ := t
  if language = "python" then singletonScan 0 lines else []

/-- `CodeAnalyzer.detect_code_patterns`: anti-patterns first, then design
patterns, over `content.splitlines()`. -/
def detect_code_patterns (tree : TSNode) (content : String) (language : String) :
    List CodePattern :=
  let lines := splitlines content
  detect_anti_patterns tree lines language ++
    detect_design_patterns tree lines language

/-! ## Dependency analysis (`analyze_dependencies`) -/

/-- The import-node kinds collected by `analyze_dependencies`. -/
def isImportNode (lang : String) (t : String) : Bool :=
  if lang = "python" then
    t == "import_statement" || t == "import_from_statement"
  else if lang = "javascript" ∨ lang = "typescript" then
    t == "import_statement"
  else false

/-- `content[node.start_byte : node.end_byte].strip()` (content indexed at
the character level; the analyzed sources are ASCII so bytes = chars). -/
def nodeText (content : String) (n : TSNode) : String :=
  (((content.toList.drop n.startByte).take (n.endByte - n.startByte)).asString).trim

/-- The import texts collected by the traversal of `analyze_dependencies`,
in traversal (source) order. -/
def collectImports (t : TSNode) (content : String) (lang : String) : List String :=
  t.preorder.filterMap fun n =>
    if isImportNode lang n.type then some (nodeText content n) else none

/-- The path-marker heuristic of `analyze_dependencies`:
`any(marker in imp for marker in [".", "./", "../"])`. -/
def hasInternalMarker (imp : String) : Bool :=
  (["." , "./", "../"] : List String).any fun m => strContains imp m

/-- `CodeAnalyzer.analyze_dependencies`: collect import nodes in traversal
order, then split them into internal/external by the marker heuristic. -/
def analyze_dependencies (t : TSNode) (content : String) (language : String) :
    DependencyInfo :=
  let imports := collectImports t content language
  { imports := imports
    exports := []
    internal_deps := imports.filter hasInternalMarker
    external_deps := imports.filter fun i => !(hasInternalMarker i) }

/-! ## Maintainability index and file metrics -/

/-- `CodeAnalyzer.calculate_maintainability_index`: returns `100.0` for
`loc == 0`, else `min(100, max(0, (171 - 5.2*cc^0.23 - 0.23*cc -
16.2*loc^0.5) * 100 / 171))` with `cc = max(cyclomatic_complexity, 1)`.
Floats idealized as reals. -/
noncomputable def calculate_maintainability_index
    (complexity : ComplexityMetrics) (loc : Nat) : ℝ :=
  if loc = 0 then 100
  else
    let cc : ℝ := max (complexity.cyclomatic_complexity : ℝ) 1
    min 100 (max 0 ((171 - 5.2 * cc ^ (0.23 : ℝ) - 0.23 * cc
      - 16.2 * (loc : ℝ) ^ (0.5 : ℝ)) * 100 / 171))

/-- The maintainability formula exactly as the specification words it:
`MI = clamp(0, 100, (171 − 5.2·cc^0.23 − 0.23·cc − 16.2·loc^0.5) × 100 / 171)`.
Stated from the spec, for comparison with the source function above. -/
noncomputable def spec_maintainability_formula (cc loc : Nat) : ℝ :=
  max 0 (min 100 ((171 - 5.2 * (cc : ℝ) ^ (0.23 : ℝ) - 0.23 * (cc : ℝ)
    - 16.2 * (loc : ℝ) ^ (0.5 : ℝ)) * 100 / 171))

/-- `CodeAnalyzer._basic_file_metrics`: the degraded result when
tree-sitter analysis is unavailable or fails; `loc` is the non-blank line
count and every complexity field is zero, quality 50.0 / 0.5. -/
noncomputable def basic_file_metrics (file_path : String) (content : String) :
    FileMetrics :=
  let lines := splitlines content
  let loc := (lines.filter pyNonBlank).length
  { file_path := file_path
    language := "unknown"
    lines_of_code := loc
    complexity := ⟨0, 0, 0, 0⟩
    quality := ⟨50, 0.5, 0, 0⟩
    dependencies := ⟨[], [], [], []⟩
    patterns := [] }

/-! ## Repository aggregation (`analyze_repository`, `analyze_repository_enhanced`) -/

/-- `CodeAnalyzer.analyze_repository` (the dict-returning variant), reduced
to its error skeleton: a nonexistent root returns
`{"error": "Repository path does not exist"}` before any walking; the rest
of the body (abstracted as `computeStats`) runs otherwise. -/
def analyze_repository {σ : Type} (pathExists : Bool) (computeStats : Unit → σ) :
    Except String σ :=
  if pathExists = false then Except.error "Repository path does not exist"
  else Except.ok (computeStats ())

/-- The all-zero `RepositoryMetrics` literal returned by
`analyze_repository_enhanced` for a nonexistent root. -/
noncomputable def emptyRepositoryMetrics : RepositoryMetrics :=
  ⟨0, 0, [], 0, 0, [], 0⟩

/-- The per-language counter fold of the aggregation loop. -/
def addLanguage (langs : List (String × Nat × Nat)) (lang : String) (lines : Nat) :
    List (String × Nat × Nat) :=
  if langs.any fun e => e.1 == lang then
    langs.map fun e => if e.1 = lang then (e.1, e.2.1 + 1, e.2.2 + lines) else e
  else langs ++ [(lang, 1, lines)]

/-- `CodeAnalyzer._calculate_architecture_score`: 0 for no files, else
average maintainability with an anti-pattern penalty (≤20) and a
design-pattern bonus (≤10), clamped to [0, 100]. -/
noncomputable def calc_architecture_score (fms : List FileMetrics) : ℝ :=
  if fms.isEmpty then 0
  else
    let avg := (fms.map fun fm => fm.quality.maintainability_index).sum / fms.length
    let anti : Nat := (fms.map fun fm =>
      (fm.patterns.filter fun p => p.pattern_type == "anti_pattern").length).sum
    let design : Nat := (fms.map fun fm =>
      (fm.patterns.filter fun p => p.pattern_type == "design_pattern").length).sum
    max 0 (min 100 (avg - min (anti * 2) 20 + min (design * 1) 10))

/-- `CodeAnalyzer.analyze_repository_enhanced`. `pathExists` is
`os.path.exists(repo_path)`; `files` is the list of eligible (path,
content) pairs produced by the walk, in walk order; `analyzeFile` is
`self.analyze_file_enhanced`. A nonexistent root returns the all-zero
`RepositoryMetrics`; otherwise the loop folds per-file metrics into the
totals, averages over files whose language is not "unknown" (denominator
floored at 1), collects hotspots (cyclomatic > 10 or maintainability < 50,
first 10) and the architecture score. -/
noncomputable def analyze_repository_enhanced (pathExists : Bool)
    (files : List (String × String)) (analyzeFile : String → String → FileMetrics) :
    RepositoryMetrics :=
  if pathExists = false then emptyRepositoryMetrics
  else
    let fms := files.map fun pc => analyzeFile pc.1 pc.2
    let analyzed := fms.filter fun fm => fm.language != "unknown"
    let total_complexity : ℝ :=
      (analyzed.map fun fm => (fm.complexity.cyclomatic_complexity : ℝ)).sum
    let total_maintainability : ℝ :=
      (analyzed.map fun fm => fm.quality.maintainability_index).sum
    let analyzed_files : Nat := analyzed.length
    let hotspots := (fms.filter fun fm =>
      decide (10 < fm.complexity.cyclomatic_complexity) ||
        decide (fm.quality.maintainability_index < 50)).map fun fm => fm.file_path
    { total_files := fms.length
      total_lines := (fms.map fun fm => fm.lines_of_code).sum
      languages := fms.foldl (fun acc fm => addLanguage acc fm.language fm.lines_of_code) []
      avg_complexity := total_complexity / max (analyzed_files : ℝ) 1
      avg_maintainability := total_maintainability / max (analyzed_files : ℝ) 1
      hotspots := hotspots.take 10
      architecture_score := calc_architecture_score fms }

/-! ## Concrete scenario inputs -/

/-- The tree-sitter-python parse tree of the Scenario A file
`def f():\n    if True:\n        pass` (modelled from the grammar of the
external tree-sitter-python library; node kinds and rows as produced by
`parser.parse`). -/
def scenarioA_tree : TSNode :=
  .node "module" 0 3 0 31
    [.node "function_definition" 0 2 0 31
      [.node "def" 0 0 0 3 [], .node "identifier" 0 0 4 5 [],
       .node "parameters" 0 0 5 7 [], .node ":" 0 0 7 8 [],
       .node "block" 1 2 13 31
        [.node "if_statement" 1 2 13 31
          [.node "if" 1 1 13 15 [], .node "true" 1 1 16 20 [],
           .node ":" 1 1 20 21 [],
           .node "block" 2 2 27 31 [.node "pass_statement" 2 2 27 31 []]]]]]

/-- The `class_definition` node of the Scenario B file: a Python class
with 21 trivial methods (block child holding 21 `function_definition`
nodes), modelled from the tree-sitter-python grammar. -/
def scenarioB_class : TSNode :=
  .node "class_definition" 0 21 0 400
    [.node "class" 0 0 0 5 [], .node "identifier" 0 0 6 7 [],
     .node ":" 0 0 7 8 [],
     .node "block" 1 21 13 400
       ((List.range 21).map fun i =>
         .node "function_definition" (i + 1) (i + 1) 0 0 [])]

/-- The root module node of the Scenario B file. -/
def scenarioB_tree : TSNode :=
  .node "module" 0 21 0 400 [scenarioB_class]

/-- Content of a Python file whose first line defines `__new__(cls)` and
whose second function spans more than 50 lines: line 1 triggers the
Singleton design pattern, line 3 the Long Method anti-pattern. -/
def orderCexContent : String :=
  "def __new__(cls):\n    pass\ndef big():\n" ++
    String.join (List.replicate 52 "    x = 1\n")

/-- The corresponding parse tree (modelled from the tree-sitter-python
grammar): a 2-row `__new__` function followed by a function spanning rows
2–54. -/
def orderCexTree : TSNode :=
  .node "module" 0 55 0 559
    [.node "function_definition" 0 1 0 26
       [.node "def" 0 0 0 3 [], .node "identifier" 0 0 4 11 [],
        .node "parameters" 0 0 11 16 [], .node ":" 0 0 16 17 [],
        .node "block" 1 1 22 26 [.node "pass_statement" 1 1 22 26 []]],
     .node "function_definition" 2 54 27 559
       [.node "def" 2 2 27 30 [], .node "identifier" 2 2 31 34 [],
        .node "parameters" 2 2 34 36 [], .node ":" 2 2 36 37 [],
        .node "block" 3 54 43 559 []]]

/-! ## Helper lemmas -/

/-- For reals, `min 100 (max 0 x)` (the source's clamp) agrees with
`max 0 (min 100 x)` (the spec's clamp). -/
theorem clamp_comm (X : ℝ) : min 100 (max 0 X) = max 0 (min 100 X) := by
  rcases le_total X 0 with h | h
  · rw [max_eq_left h, min_eq_right (h.trans (by norm_num)),
      min_eq_right (by norm_num : (0:ℝ) ≤ 100), max_eq_left h]
  · rw [max_eq_right h, max_eq_right (le_min (by norm_num) h)]

/-- Aggregating zero eligible files produces the all-zero record. -/
theorem enhanced_no_files (analyzeFile : String → String → FileMetrics) :
    analyze_repository_enhanced true [] analyzeFile = emptyRepositoryMetrics := by
  simp only [analyze_repository_enhanced, emptyRepositoryMetrics,
    calc_architecture_score]
  norm_num

/-- A guarded `filterMap` is a `map` over a `filter`. -/
theorem filterMap_if_eq_map_filter {α β : Type} (p : α → Bool) (f : α → β) :
    ∀ l : List α,
      (l.filterMap fun a => if p a then some (f a) else none) = (l.filter p).map f := by
  intro l
  induction l with
  | nil => rfl
  | cons a as ih =>
    rw [List.filterMap_cons, List.filter_cons]
    by_cases h : p a
    · rw [if_pos h, if_pos h, List.map_cons, ih]
    · rw [if_neg h, if_neg h, ih]

/-- Filtering by a predicate and by its negation splits the length. -/
theorem length_filter_add_length_filter_not {α : Type} (p : α → Bool) :
    ∀ l : List α,
      (l.filter p).length + (l.filter fun a => !(p a)).length = l.length := by
  intro l
  induction l with
  | nil => rfl
  | cons a as ih =>
    rw [List.filter_cons, List.filter_cons]
    cases hpa : p a with
    | true =>
      rw [if_pos (by decide), if_neg (by decide)]
      simp only [List.length_cons]
      omega
    | false =>
      rw [if_neg (by decide), if_pos (by decide)]
      simp only [List.length_cons]
      omega

/-- Everything in the preorder of a member is in the preorder of the list. -/
theorem mem_preorderList_of_mem :
    ∀ (cs : List TSNode) (c : TSNode), c ∈ cs →
      ∀ {x : TSNode}, x ∈ c.preorder → x ∈ TSNode.preorderList cs := by
  intro cs
  induction cs with
  | nil => intro c h; exact absurd h (List.not_mem_nil _)
  | cons d ds ih =>
    intro c h x hx
    rw [TSNode.preorderList]
    cases h with
    | head => exact List.mem_append_left _ hx
    | tail _ hmem => exact List.mem_append_right _ (ih c hmem hx)

/-- Every node occurring in a tree is visited by the traversal. -/
theorem occursIn_mem_preorder {n t : TSNode} (h : OccursIn n t) : n ∈ t.preorder := by
  induction h with
  | refl =>
    cases n with
    | node ty s e sb eb cs => rw [TSNode.preorder]; exact List.mem_cons_self _ _
  | child hmem _ ih =>
    rw [TSNode.preorder]
    exact List.mem_cons_of_mem _ (mem_preorderList_of_mem _ _ hmem ih)

/-- A row-sorted node list yields line-sorted emissions, for any per-node
hit that reports `startRow + 1` as the line. -/
theorem sorted_filterMap_rows (h : TSNode → Option CodePattern)
    (hline : ∀ n p, h n = some p → p.line_number = n.startRow + 1) :
    ∀ l : List TSNode, List.Sorted (· ≤ ·) (l.map TSNode.startRow) →
      List.Sorted (· ≤ ·) ((l.filterMap h).map CodePattern.line_number) := by
  intro l
  induction l with
  | nil => intro _; simp
  | cons n ns ih =>
    intro hs
    rw [List.map_cons, List.sorted_cons] at hs
    obtain ⟨hall, hrest⟩ := hs
    rw [List.filterMap_cons]
    cases hh : h n with
    | none => exact ih hrest
    | some p =>
      rw [List.map_cons, List.sorted_cons]
      refine ⟨?_, ih hrest⟩
      intro b hb
      rcases List.mem_map.mp hb with ⟨q, hq, rfl⟩
      rcases List.mem_filterMap.mp hq with ⟨m, hm, hqm⟩
      rw [hline m q hqm, hline n p hh]
      have hrow := hall m.startRow (List.mem_map_of_mem _ hm)
      omega

/-- Patterns emitted by the Singleton scan starting at index `i` carry
line numbers at least `i + 1`. -/
theorem singletonScan_line_ge :
    ∀ (lines : List String) (i : Nat) (p : CodePattern),
      p ∈ singletonScan i lines → i + 1 ≤ p.line_number := by
  intro lines
  induction lines with
  | nil => intro i p h; simp [singletonScan] at h
  | cons l rest ih =>
    intro i p h
    rw [singletonScan] at h
    rcases List.mem_append.mp h with h1 | h2
    · split at h1
      · rcases List.mem_singleton.mp h1 with rfl; exact le_refl _
      · simp at h1
    · have := ih (i + 1) p h2; omega

/-! ## Claim theorems -/

/-- C1 counterexample: the degraded path (`_basic_file_metrics`, reached
for unknown-language files and on tree-sitter failure) produces a
`FileMetrics` whose cyclomatic complexity is 0, not ≥ 1. -/
theorem degraded_file_cyclomatic_lt_one :
    ¬ (1 ≤ (basic_file_metrics "module.xyz" "x = 1").complexity.cyclomatic_complexity) := by
  decide

/-- C1 (amended): cyclomatic complexity computed in AST mode starts at
base 1 and only increases, hence is ≥ 1 for every tree and language; the
degraded path instead fixes it at 0. -/
theorem cyclomatic_base_one_ast_zero_degraded :
    (∀ (tree : TSNode) (language : String),
      1 ≤ calculate_cyclomatic_complexity tree language) ∧
    (∀ (file_path content : String),
      (basic_file_metrics file_path content).complexity.cyclomatic_complexity = 0) := by
  constructor
  · intro t lang
    exact Nat.le_add_right 1 _
  · intro p c
    rfl

/-- C2 counterexample: for a nonexistent root, `analyze_repository_enhanced`
returns a plain `RepositoryMetrics` equal to the one produced for an
existing empty repository — no error flag or field distinguishes them. -/
theorem enhanced_nonexistent_equals_empty_repo :
    analyze_repository_enhanced false [("a.py", "x = 1")] basic_file_metrics =
      analyze_repository_enhanced true [] basic_file_metrics := by
  rw [enhanced_no_files]
  simp [analyze_repository_enhanced]

/-- C2 (amended): only the dict-returning `analyze_repository` fails with
an explicit error value for a nonexistent root; `analyze_repository_enhanced`
instead returns the all-zero `RepositoryMetrics`, which coincides with the
report of an existing empty repository. -/
theorem root_missing_error_behavior :
    (∀ (σ : Type) (computeStats : Unit → σ),
      analyze_repository false computeStats =
        Except.error "Repository path does not exist") ∧
    (∀ (files : List (String × String)) (analyzeFile : String → String → FileMetrics),
      analyze_repository_enhanced false files analyzeFile = emptyRepositoryMetrics) ∧
    (∀ analyzeFile : String → String → FileMetrics,
      analyze_repository_enhanced true [] analyzeFile = emptyRepositoryMetrics) := by
  refine ⟨fun σ computeStats => rfl, fun files analyzeFile => ?_, enhanced_no_files⟩
  simp [analyze_repository_enhanced]

/-- C3 counterexample: at `loc = 0` (an empty or all-blank file parsed in
AST mode, where `cc = 1`) the source returns `100.0`, while the spec's
clamp formula evaluates to `16557/171 ≈ 96.8`. -/
theorem maintainability_mismatch_at_zero_loc :
    calculate_maintainability_index ⟨1, 0, 0, 0⟩ 0 ≠
      spec_maintainability_formula 1 0 := by
  unfold calculate_maintainability_index spec_maintainability_formula
  rw [if_pos rfl]
  rw [show (((1 : Nat) : ℝ)) = 1 by norm_num, show (((0 : Nat) : ℝ)) = 0 by norm_num,
    Real.one_rpow, Real.zero_rpow (by norm_num)]
  rw [min_eq_right (by norm_num), max_eq_right (by norm_num)]
  norm_num

/-- C3 (amended): whenever the non-blank line count is positive, the
source maintainability index equals the spec's clamp formula applied to
the AST-mode cyclomatic complexity and the line count; and for every
input the result lies in [0, 100] (at `loc = 0` the source returns 100
directly). -/
theorem maintainability_matches_formula :
    (∀ (tree : TSNode) (language : String) (cm : ComplexityMetrics) (loc : Nat),
      cm.cyclomatic_complexity = calculate_cyclomatic_complexity tree language →
      1 ≤ loc →
      calculate_maintainability_index cm loc =
        spec_maintainability_formula cm.cyclomatic_complexity loc) ∧
    (∀ (cm : ComplexityMetrics) (loc : Nat),
      0 ≤ calculate_maintainability_index cm loc ∧
      calculate_maintainability_index cm loc ≤ 100) := by
  constructor
  · intro t lang cm loc hcc hloc
    have h1 : 1 ≤ cm.cyclomatic_complexity := by
      rw [hcc]; exact Nat.le_add_right 1 _
    unfold calculate_maintainability_index spec_maintainability_formula
    rw [if_neg (by omega)]
    rw [max_eq_left (by exact_mod_cast h1)]
    exact clamp_comm _
  · intro cm loc
    unfold calculate_maintainability_index
    by_cases h0 : loc = 0
    · rw [if_pos h0]; norm_num
    · rw [if_neg h0]
      exact ⟨le_min (by norm_num) (le_max_left 0 _), min_le_left _ _⟩

/-- C3 witness: the amended equality instantiated at the Scenario A tree
(`cc = 2`) and one non-blank line. -/
theorem maintainability_matches_formula_check :
    (⟨2, 0, 0, 0⟩ : ComplexityMetrics).cyclomatic_complexity =
      calculate_cyclomatic_complexity scenarioA_tree "python" ∧
    1 ≤ 1 ∧
    calculate_maintainability_index ⟨2, 0, 0, 0⟩ 1 =
      spec_maintainability_formula 2 1 :=
  ⟨by decide, le_refl 1,
    maintainability_matches_formula.1 scenarioA_tree "python" ⟨2, 0, 0, 0⟩ 1
      (by decide) (le_refl 1)⟩

/-- C4: the tree of `def f():\n    if True:\n        pass` contains one
`if_statement` decision node, so AST-mode cyclomatic complexity is 2. -/
theorem scenarioA_cyclomatic_two :
    calculate_cyclomatic_complexity scenarioA_tree "python" = 2 := by
  decide

/-- C5: every Python `class_definition` occurring in the analyzed tree
whose owned method count exceeds 20 yields a God Class anti-pattern
`CodePattern` located at the class's starting line. -/
theorem god_class_emitted (root n : TSNode) (content : String)
    (hocc : OccursIn n root) (hty : n.type = "class_definition")
    (hcount : 20 < count_methods n) :
    (⟨"anti_pattern", "God Class", 0.7, "Line " ++ toString (n.startRow + 1),
      n.startRow + 1⟩ : CodePattern) ∈ detect_code_patterns root content "python" := by
  simp only [detect_code_patterns, detect_anti_patterns]
  refine List.mem_append_left _ (List.mem_append_right _ ?_)
  unfold traverse_for_god_class
  refine List.mem_filterMap.mpr ⟨n, occursIn_mem_preorder hocc, ?_⟩
  unfold godClassHit
  rw [if_pos ⟨rfl, hty, hcount⟩]

/-- C5 witness: Scenario B (a class with 21 trivial methods) triggers the
God Class pattern at line 1. -/
theorem god_class_emitted_check :
    OccursIn scenarioB_class scenarioB_tree ∧
    scenarioB_class.type = "class_definition" ∧
    20 < count_methods scenarioB_class ∧
    (⟨"anti_pattern", "God Class", 0.7,
      "Line " ++ toString (scenarioB_class.startRow + 1),
      scenarioB_class.startRow + 1⟩ : CodePattern) ∈
      detect_code_patterns scenarioB_tree "" "python" := by
  have hocc : OccursIn scenarioB_class scenarioB_tree := by
    show OccursIn scenarioB_class (TSNode.node "module" 0 21 0 400 [scenarioB_class])
    exact OccursIn.child (List.mem_cons_self _ _) (OccursIn.refl _)
  exact ⟨hocc, rfl, by decide,
    god_class_emitted scenarioB_tree scenarioB_class "" hocc rfl (by decide)⟩

/-- C6 counterexample: a file whose first line is a `__new__(cls)`
definition followed by a >50-line function makes `detect_code_patterns`
emit the Long Method pattern (line 3) before the Singleton pattern
(line 1): line numbers across the returned list decrease. -/
theorem pattern_order_not_global :
    ¬ List.Sorted (· ≤ ·)
      ((detect_code_patterns orderCexTree orderCexContent "python").map
        CodePattern.line_number) := by
  decide

/-- C6 (amended): detection is a pure function of its inputs; the emitted
list is the concatenation of the Long Method traversal, the God Class
traversal and the Singleton line scan, and line numbers are non-decreasing
within each of the three groups (for the tree-based groups, whenever the
traversal visits rows in non-decreasing order, as parse-tree preorders
do) — but not across the whole list. -/
theorem pattern_groups_ordered :
    (∀ (t : TSNode) (content : String) (lang : String),
      detect_code_patterns t content lang =
        traverse_for_long_methods lang t ++ traverse_for_god_class lang t ++
          detect_design_patterns t (splitlines content) lang) ∧
    (∀ (lines : List String) (i : Nat),
      List.Sorted (· ≤ ·) ((singletonScan i lines).map CodePattern.line_number)) ∧
    (∀ (t : TSNode) (lang : String),
      List.Sorted (· ≤ ·) (t.preorder.map TSNode.startRow) →
      List.Sorted (· ≤ ·)
        ((traverse_for_long_methods lang t).map CodePattern.line_number) ∧
      List.Sorted (· ≤ ·)
        ((traverse_for_god_class lang t).map CodePattern.line_number)) := by
  refine ⟨?_, ?_, ?_⟩
  · intro t content lang
    simp [detect_code_patterns, detect_anti_patterns, List.append_assoc]
  · intro lines
    induction lines with
    | nil => intro i; simp [singletonScan]
    | cons l rest ih =>
      intro i
      rw [singletonScan, List.map_append]
      split
      · rw [List.map_cons, List.map_nil, List.singleton_append, List.sorted_cons]
        refine ⟨?_, ih (i + 1)⟩
        intro b hb
        rcases List.mem_map.mp hb with ⟨q, hq, rfl⟩
        exact Nat.le_of_succ_le (singletonScan_line_ge rest (i + 1) q hq)
      · rw [List.map_nil, List.nil_append]
        exact ih (i + 1)
  · intro t lang hrows
    constructor
    · refine sorted_filterMap_rows (longMethodHit lang) ?_ t.preorder hrows
      intro n p hnp
      unfold longMethodHit at hnp
      split at hnp
      · cases hnp; rfl
      · cases hnp
    · refine sorted_filterMap_rows (godClassHit lang) ?_ t.preorder hrows
      intro n p hnp
      unfold godClassHit at hnp
      split at hnp
      · cases hnp; rfl
      · cases hnp

/-- C6 witness: the per-group ordering applied to the (row-sorted)
Scenario A tree. -/
theorem pattern_groups_ordered_check :
    List.Sorted (· ≤ ·) (scenarioA_tree.preorder.map TSNode.startRow) ∧
    (List.Sorted (· ≤ ·)
      ((traverse_for_long_methods "python" scenarioA_tree).map CodePattern.line_number) ∧
     List.Sorted (· ≤ ·)
      ((traverse_for_god_class "python" scenarioA_tree).map CodePattern.line_number)) :=
  ⟨by decide, pattern_groups_ordered.2.2 scenarioA_tree "python" (by decide)⟩

/-- C7: the dependency report lists imports in traversal (source) order,
and internal/external dependencies partition them by the `.`/`./`/`../`
marker heuristic — each import lands in exactly one of the two lists. -/
theorem dependency_partition (t : TSNode) (content : String) (lang : String) :
    (analyze_dependencies t content lang).imports =
      (t.preorder.filter fun n => isImportNode lang n.type).map (nodeText content) ∧
    (analyze_dependencies t content lang).internal_deps =
      (analyze_dependencies t content lang).imports.filter hasInternalMarker ∧
    (analyze_dependencies t content lang).external_deps =
      (analyze_dependencies t content lang).imports.filter
        (fun i => !(hasInternalMarker i)) ∧
    (analyze_dependencies t content lang).internal_deps.length +
        (analyze_dependencies t content lang).external_deps.length =
      (analyze_dependencies t content lang).imports.length ∧
    (∀ imp, imp ∈ (analyze_dependencies t content lang).internal_deps ↔
      imp ∈ (analyze_dependencies t content lang).imports ∧
        hasInternalMarker imp = true) ∧
    (∀ imp, imp ∈ (analyze_dependencies t content lang).external_deps ↔
      imp ∈ (analyze_dependencies t content lang).imports ∧
        hasInternalMarker imp = false) := by
  refine ⟨?_, rfl, rfl, ?_, ?_, ?_⟩
  · show collectImports t content lang = _
    unfold collectImports
    exact filterMap_if_eq_map_filter _ _ _
  · exact length_filter_add_length_filter_not hasInternalMarker _
  · intro imp
    exact List.mem_filter
  · intro imp
    show imp ∈ (analyze_dependencies t content lang).imports.filter
      (fun i => !(hasInternalMarker i)) ↔ _
    rw [List.mem_filter]
    exact and_congr_right fun _ => by cases hasInternalMarker imp <;> simp

/-- C8: aggregating an existing root with no eligible files yields zero
total files, architecture score 0.0 and no hotspots. -/
theorem empty_directory_aggregation (analyzeFile : String → String → FileMetrics) :
    (analyze_repository_enhanced true [] analyzeFile).total_files = 0 ∧
    (analyze_repository_enhanced true [] analyzeFile).architecture_score = 0 ∧
    (analyze_repository_enhanced true [] analyzeFile).hotspots = [] := by
  rw [enhanced_no_files]
  exact ⟨rfl, rfl, rfl⟩

/-- C10: `calculate_maintainability_index` returns exactly 100.0 whenever
the non-blank line count is 0, for every `ComplexityMetrics` input,
bypassing the formula. -/
theorem maintainability_at_zero_loc (cm : ComplexityMetrics) :
    calculate_maintainability_index cm 0 = 100 := by
  unfold calculate_maintainability_index
  rw [if_pos rfl]

/-! ## Character and path lemmas for language detection (C9) -/

/-- `Char.ofNat` of a valid scalar value has that value. -/
theorem toNat_charOfNat {n : Nat} (h : n.isValidChar) : (Char.ofNat n).toNat = n := by
  unfold Char.ofNat
  rw [dif_pos h]
  rfl

/-- ASCII lowercasing is idempotent. -/
theorem lowerChar_idem (c : Char) : lowerChar (lowerChar c) = lowerChar c := by
  unfold lowerChar
  by_cases h : 65 ≤ c.toNat ∧ c.toNat ≤ 90
  · have ht := toNat_charOfNat (n := c.toNat + 32) (Or.inl (by omega))
    rw [if_pos h, if_neg (by rw [ht]; omega)]
  · rw [if_neg h, if_neg h]

/-- Lowercasing never produces a `/`. -/
theorem lowerChar_ne_slash {c : Char} (hc : c ≠ '/') : lowerChar c ≠ '/' := by
  unfold lowerChar
  by_cases h : 65 ≤ c.toNat ∧ c.toNat ≤ 90
  · rw [if_pos h]
    intro heq
    have h2 := congrArg Char.toNat heq
    rw [toNat_charOfNat (n := c.toNat + 32) (Or.inl (by omega))] at h2
    have h3 : ('/' : Char).toNat = 47 := rfl
    omega
  · rw [if_neg h]; exact hc

/-- Lowercasing fixes `.` and maps nothing else to it. -/
theorem lowerChar_eq_dot_iff (c : Char) : lowerChar c = '.' ↔ c = '.' := by
  unfold lowerChar
  by_cases h : 65 ≤ c.toNat ∧ c.toNat ≤ 90
  · rw [if_pos h]
    constructor
    · intro heq
      have h2 := congrArg Char.toNat heq
      rw [toNat_charOfNat (n := c.toNat + 32) (Or.inl (by omega))] at h2
      have h3 : ('.' : Char).toNat = 46 := rfl
      omega
    · intro heq
      exact absurd (heq ▸ h) (by decide)
  · rw [if_neg h]

/-- Boolean version of the previous lemma. -/
theorem lowerChar_bne_dot (c : Char) : (lowerChar c != '.') = (c != '.') := by
  by_cases hc : c = '.'
  · subst hc; decide
  · have h1 : lowerChar c ≠ '.' := fun he => hc ((lowerChar_eq_dot_iff c).mp he)
    rw [show (lowerChar c != '.') = true from bne_iff_ne.mpr h1,
      show (c != '.') = true from bne_iff_ne.mpr hc]

/-- `takeWhile` passes over a block that fully satisfies the predicate. -/
theorem takeWhile_all_append {α : Type} (p : α → Bool) :
    ∀ (l₁ l₂ : List α), (∀ a ∈ l₁, p a = true) →
      (l₁ ++ l₂).takeWhile p = l₁ ++ l₂.takeWhile p := by
  intro l₁
  induction l₁ with
  | nil => intro l₂ _; simp
  | cons a as ih =>
    intro l₂ h
    have hpa : p a = true := h a (List.mem_cons_self _ _)
    rw [List.cons_append, List.takeWhile_cons, if_pos hpa,
      ih l₂ (fun b hb => h b (List.mem_cons_of_mem _ hb)), List.cons_append]

/-- The head surviving a `dropWhile` falsifies the predicate. -/
theorem head_dropWhile_false {α : Type} (p : α → Bool) :
    ∀ (l : List α) (c : α) (t : List α), l.dropWhile p = c :: t → p c = false := by
  intro l
  induction l with
  | nil => intro c t h; simp [List.dropWhile] at h
  | cons a as ih =>
    intro c t h
    rw [List.dropWhile_cons] at h
    by_cases hpa : p a
    · rw [if_pos hpa] at h; exact ih c t h
    · rw [if_neg hpa] at h
      injection h with h1 h2
      subst h1
      exact Bool.eq_false_iff.mpr hpa

/-- The name part of `dir ++ name` is `name` when the directory part is
empty or ends in `/` and the name has no `/`. -/
theorem lastComponentL_append (d m : List Char)
    (hd : d = [] ∨ d.getLast? = some '/') (hm : ∀ c ∈ m, c ≠ '/') :
    lastComponentL (d ++ m) = m := by
  unfold lastComponentL
  rw [List.reverse_append]
  rw [takeWhile_all_append _ _ _ (fun a ha => bne_iff_ne.mpr (hm a (List.mem_reverse.mp ha)))]
  have hdrop : d.reverse.takeWhile (fun c => c != '/') = [] := by
    rcases hd with rfl | hlast
    · rfl
    · cases hr : d.reverse with
      | nil => rfl
      | cons c t =>
        have hh : d.reverse.head? = some '/' := by
          rw [List.head?_reverse]; exact hlast
        rw [hr] at hh
        injection hh with hc
        subst hc
        simp [List.takeWhile_cons]
  rw [hdrop, List.append_nil, List.reverse_reverse]

/-- The directory part computed by `dropLastComponentL` is empty or ends
in `/`. -/
theorem dropLastComponentL_spec (l : List Char) :
    dropLastComponentL l = [] ∨ (dropLastComponentL l).getLast? = some '/' := by
  unfold dropLastComponentL
  cases h : l.reverse.dropWhile (fun c => c != '/') with
  | nil => left; rfl
  | cons c t =>
    right
    rw [List.getLast?_reverse]
    have hfalse := head_dropWhile_false _ l.reverse c t h
    have hc : c = '/' := by
      by_cases hcc : c = '/'
      · exact hcc
      · have htrue := bne_iff_ne.mpr hcc
        rw [hfalse] at htrue
        simp at htrue
    rw [hc]; rfl

/-- The name part of a path contains no `/`. -/
theorem lastComponentL_no_slash (l : List Char) : ∀ c ∈ lastComponentL l, c ≠ '/' := by
  intro c hc
  unfold lastComponentL at hc
  rw [List.mem_reverse] at hc
  exact bne_iff_ne.mp (List.mem_takeWhile_imp (p := fun c => c != '/') hc)

/-- Concatenating two strings concatenates their char lists. -/
theorem toList_append (s t : String) : (s ++ t).toList = s.toList ++ t.toList := by
  simp [String.toList, String.data_append]

/-- `str.lower()` is idempotent. -/
theorem pyLower_idem (s : String) : pyLower (pyLower s) = pyLower s := by
  unfold pyLower
  rw [List.toList_asString, List.map_map]
  congr 1
  exact List.map_congr_left fun c _ => lowerChar_idem c

/-- The `pathlib` suffix of a lowercased name is the lowercased suffix. -/
theorem suffixL_map_lower (l : List Char) :
    suffixL (l.map lowerChar) = (suffixL l).map lowerChar := by
  unfold suffixL
  have h1 : (l.map lowerChar).reverse.takeWhile (fun c => c != '.') =
      (l.reverse.takeWhile (fun c => c != '.')).map lowerChar := by
    have hfun : ((fun c => c != '.') ∘ lowerChar) = (fun c => c != '.') :=
      funext fun c => lowerChar_bne_dot c
    rw [← List.map_reverse, List.takeWhile_map, hfun]
  rw [h1, ← List.map_reverse]
  simp only [List.length_map]
  rw [apply_ite (List.map lowerChar), apply_ite (List.map lowerChar),
    apply_ite (List.map lowerChar)]
  simp only [List.map_nil, List.map_cons, show lowerChar '.' = '.' from rfl]

/-- String-level version of the previous lemma. -/
theorem suffixOf_pyLower (s : String) : suffixOf (pyLower s) = pyLower (suffixOf s) := by
  unfold suffixOf pyLower
  rw [List.toList_asString, List.toList_asString, suffixL_map_lower]

/-- The name part of "directory of `p`" plus "lowercased name of `p`" is
the lowercased name of `p`. -/
theorem lastComponent_rebuilt (p : String) :
    lastComponent (dropLastComponent p ++ pyLower (lastComponent p)) =
      pyLower (lastComponent p) := by
  unfold lastComponent dropLastComponent pyLower
  rw [toList_append, List.toList_asString, List.toList_asString]
  congr 1
  apply lastComponentL_append
  · exact dropLastComponentL_spec _
  · intro c hc
    rcases List.mem_map.mp hc with ⟨a, ha, rfl⟩
    exact lowerChar_ne_slash (lastComponentL_no_slash _ a ha)

/-- C9: language detection is case-insensitive in the filename — it
returns the same answer when the path's filename is replaced by its
lowercased form (both the special-name check and the extension lookup
already operate on the lowercased name) — and it is total: when the
lowered name is not special and the lowered extension misses the table,
it returns `none` rather than failing. -/
theorem detect_language_lowercase_total :
    (∀ p : String,
      detect_language p =
        detect_language (dropLastComponent p ++ pyLower (lastComponent p))) ∧
    (∀ p : String,
      pyLower (lastComponent p) ∉
        (["cmakelists.txt", "makefile", "makefile.am", "makefile.in",
          "dockerfile"] : List String) →
      List.lookup (pyLower (suffixOf (lastComponent p))) extension_map = none →
      detect_language p = none) := by
  constructor
  · intro p
    have hlast := lastComponent_rebuilt p
    simp only [detect_language]
    rw [hlast, suffixOf_pyLower, pyLower_idem, pyLower_idem]
  · intro p h1 h2
    have h1' : pyLower (lastComponent p) ∉
        (["cmakelists.txt", "makefile", "makefile.am", "makefile.in"] : List String) := by
      intro hm
      apply h1
      simp only [List.mem_cons, List.not_mem_nil, or_false] at hm ⊢
      tauto
    have h1d : ¬ pyLower (lastComponent p) = "dockerfile" := by
      intro hd
      apply h1
      simp [hd]
    simp only [detect_language]
    rw [if_neg h1', if_neg h1d, h2]

/-- C9 witness: an unknown extension in a subdirectory, with detection
evaluated concretely. -/
theorem detect_language_lowercase_total_check :
    (pyLower (lastComponent "src/Photo.xyz") ∉
      (["cmakelists.txt", "makefile", "makefile.am", "makefile.in",
        "dockerfile"] : List String)) ∧
    List.lookup (pyLower (suffixOf (lastComponent "src/Photo.xyz"))) extension_map = none ∧
    detect_language "src/Photo.xyz" = none :=
  ⟨by decide, by decide,
    detect_language_lowercase_total.2 "src/Photo.xyz" (by decide) (by decide)⟩
